import Mathlib

/-!
Verification of the multi-instance SearXNG search server core.

Shallow embedding of:
- the parameter validator `isWebSearchArgs`,
- the result shaper `formatStructuredSearchResult` / `buildStructuredResponse`,
- the sequential-fallback handler `SearchHandler.search` and the
  parallel-fanout handler `ParallelSearchHandler.search`.

JavaScript dynamic values are modelled by `JSVal` with numbers as rationals
(the embedding has no NaN / Infinity; `isNaN(Number(x))` is false for every
finite number, so that part of the page check is identically false here).
JavaScript strings are modelled by Lean `String` and `.length` counts
characters.
-/

namespace Searx

/-- Model of a JavaScript value as received by the validator. -/
inductive JSVal where
  | null
  | undefined
  | bool (b : Bool)
  | num (v : ℚ)
  | str (s : String)
  | arr (elems : List JSVal)
  | obj (fields : List (String × JSVal))

/-- Discriminator for the `null` value (models `args === null`). -/
def isNull : JSVal → Bool
  | .null => true
  | _ => false

/-- Discriminator for the `undefined` value (models `x !== undefined` tests). -/
def isUndef : JSVal → Bool
  | .undefined => true
  | _ => false

/-- Model of the JavaScript `typeof` operator (note `typeof null = "object"`). -/
def jsTypeof : JSVal → String
  | .null => "object"
  | .undefined => "undefined"
  | .bool _ => "boolean"
  | .num _ => "number"
  | .str _ => "string"
  | .arr _ => "object"
  | .obj _ => "object"

/-- Key lookup in an object field list (first match wins; JS objects have unique keys). -/
def lookupKey : List (String × JSVal) → String → Option JSVal
  | [], _ => none
  | (k, v) :: rest, key => if k = key then some v else lookupKey rest key

/-- Model of the JavaScript `key in obj` operator for our object values. -/
def hasKey (v : JSVal) (key : String) : Bool :=
  match v with
  | .obj fields => (lookupKey fields key).isSome
  | _ => false

/-- Model of JavaScript property access `obj.key`: `undefined` when absent. -/
def jsGet (v : JSVal) (key : String) : JSVal :=
  match v with
  | .obj fields => (lookupKey fields key).getD .undefined
  | _ => .undefined

/-- Numeric value of a `JSVal`; only meaningful after a `typeof x === "number"` test. -/
def numVal : JSVal → ℚ
  | .num v => v
  | _ => 0

/-- String value of a `JSVal`; only meaningful after a `typeof x === "string"` test. -/
def strVal : JSVal → String
  | .str s => s
  | _ => ""

/-- Model of `Array.isArray`. -/
def isArr : JSVal → Bool
  | .arr _ => true
  | _ => false

/-- Element list of an array value. -/
def jsElems : JSVal → List JSVal
  | .arr elems => elems
  | _ => []

/-- Model of JavaScript string coercion used in template literals (best effort;
only the `str` case is reached by the code paths we verify). -/
def jsDisplay : JSVal → String
  | .null => "null"
  | .undefined => "undefined"
  | .bool b => if b then "true" else "false"
  | .num v => toString v
  | .str s => s
  | .arr _ => ""
  | .obj _ => "[object Object]"

/-- Model of JavaScript `Array.prototype.join(sep)`. -/
def jsJoin (sep : String) : List String → String
  | [] => ""
  | [x] => x
  | x :: y :: rest => x ++ sep ++ jsJoin sep (y :: rest)

/-- Return shape of the validator: `{ valid: boolean; error?: string }`. -/
structure ValidationResult where
  valid : Bool
  error : Option String
deriving DecidableEq, Repr

/-- The closed `time_range` vocabulary from `isWebSearchArgs`. -/
def validTimeRanges : List String := ["all_time", "day", "week", "month", "year"]

/-- The closed category vocabulary from `isWebSearchArgs`. -/
def validCategories : List String :=
  ["general", "news", "science", "files", "images", "videos", "music", "social media", "it"]

/-- First element of the `categories` array failing
`typeof category === "string" && validCategories.includes(category)`. -/
def firstBadCategory : List JSVal → Option JSVal
  | [] => none
  | c :: rest =>
    if jsTypeof c = "string" ∧ strVal c ∈ validCategories then firstBadCategory rest
    else some c

/-- One guarded early `return` of the validator: reject with `msg` when
`cond` holds, otherwise continue with the rest of the checks. -/
def checkResult (cond : Prop) [Decidable cond] (msg : String) (next : ValidationResult) :
    ValidationResult :=
  if cond then ⟨false, some msg⟩ else next

/-- Embedding of `isWebSearchArgs` (src/unnamed/part_003 lines 102-194).
Each guarded early `return` becomes one `checkResult` link, in source order;
an outer `x !== undefined` if containing a rejecting inner if is flattened
to the conjunction of both conditions.  Short-circuit evaluation in JS means
the numeric comparisons only run on numbers, which `numVal` reflects. -/
def isWebSearchArgs (args : JSVal) : ValidationResult :=
  checkResult (jsTypeof args ≠ "object" ∨ isNull args)
    "Arguments must be an object" (
  checkResult (¬ hasKey args "query")
    "Missing required parameter: 'query'" (
  checkResult (jsTypeof (jsGet args "query") ≠ "string")
    "Parameter 'query' must be a string" (
  checkResult (¬ isUndef (jsGet args "page") ∧ jsTypeof (jsGet args "page") ≠ "number")
    "Parameter 'page' must be a valid number" (
  checkResult (¬ isUndef (jsGet args "language") ∧ jsTypeof (jsGet args "language") ≠ "string")
    "Parameter 'language' must be a string" (
  checkResult (¬ isUndef (jsGet args "time_range") ∧
      (jsTypeof (jsGet args "time_range") ≠ "string" ∨
        strVal (jsGet args "time_range") ∉ validTimeRanges))
    ("Parameter 'time_range' must be one of the exact strings: " ++
      jsJoin ", " validTimeRanges ++ ". Shorthand formats like '3d' are not supported.") (
  checkResult (¬ isUndef (jsGet args "safesearch") ∧
      (jsTypeof (jsGet args "safesearch") ≠ "number" ∨
        numVal (jsGet args "safesearch") ∉ ([0, 1, 2] : List ℚ)))
    "Parameter 'safesearch' must be a number (0: None, 1: Moderate, 2: Strict)" (
  checkResult (¬ isUndef (jsGet args "categories") ∧ ¬ isArr (jsGet args "categories"))
    "Parameter 'categories' must be an array" (
  checkResult (¬ isUndef (jsGet args "categories") ∧
      (firstBadCategory (jsElems (jsGet args "categories"))).isSome)
    ("Invalid category: '" ++
      jsDisplay ((firstBadCategory (jsElems (jsGet args "categories"))).getD JSVal.undefined) ++
      "'. Must be one of: " ++ jsJoin ", " validCategories) (
  checkResult (¬ isUndef (jsGet args "max_results") ∧
      (jsTypeof (jsGet args "max_results") ≠ "number" ∨
        numVal (jsGet args "max_results") < 1 ∨ numVal (jsGet args "max_results") > 100))
    "Parameter 'max_results' must be a number between 1 and 100" (
  checkResult (¬ isUndef (jsGet args "offset") ∧
      (jsTypeof (jsGet args "offset") ≠ "number" ∨ numVal (jsGet args "offset") < 0))
    "Parameter 'offset' must be a number >= 0" (
  checkResult (¬ isUndef (jsGet args "content_length") ∧
      (jsTypeof (jsGet args "content_length") ≠ "number" ∨
        numVal (jsGet args "content_length") < 0 ∨ numVal (jsGet args "content_length") > 1000))
    "Parameter 'content_length' must be a number between 0 and 1000"
  ⟨true, none⟩)))))))))))

/-! Result shaper (src/unnamed/part_003 lines 20-100). -/

/-- Model of JavaScript `String.prototype.trim`: strip whitespace from both ends. -/
def trimChars (cs : List Char) : List Char :=
  ((cs.dropWhile Char.isWhitespace).reverse.dropWhile Char.isWhitespace).reverse

/-- String-level wrapper for `trimChars`. -/
def jsTrim (s : String) : String := ⟨trimChars s.data⟩

/-- Model of `s.substring(0, n)`: the first `n` characters.  The call site
computes `n` as `contentLength - 3`, and JavaScript clamps a negative end
index to 0 exactly as Nat subtraction does. -/
def jsSubstringTo (s : String) (n : Nat) : String := ⟨s.data.take n⟩

/-- Character class of the sentence-splitting regex `[.!?]`. -/
def isSentSep (c : Char) : Bool := c = '.' || c = '!' || c = '?'

/-- Split a character list at single sentence separators.  The source splits
on the regex `[.!?]+`; a run of k separators differs from k single-character
splits only by k-1 extra empty fragments, and the caller filters out all
fragments that trim to empty, so the resulting sentence list is identical. -/
def splitSentChars : List Char → List Char → List String
  | [], acc => [⟨acc.reverse⟩]
  | c :: cs, acc =>
    if isSentSep c then (⟨acc.reverse⟩ : String) :: splitSentChars cs []
    else splitSentChars cs (c :: acc)

/-- Model of `content.split(/[.!?]+/)` up to empty fragments. -/
def splitSentences (s : String) : List String := splitSentChars s.data []

/-- The sentence-accumulation loop of `formatStructuredSearchResult`: append
whole sentences re-terminated with ". " while the running length stays within
`contentLength`; `break` at the first sentence that does not fit. -/
def accumSentences (contentLength : Nat) : List String → String → String
  | [], acc => acc
  | s :: rest, acc =>
    if (acc ++ s ++ ". ").length ≤ contentLength then
      accumSentences contentLength rest (acc ++ s ++ ". ")
    else acc

/-- JavaScript truthiness of an optional string field: absent and the empty
string are falsy, every other string is truthy. -/
def strTruthy : Option String → Bool
  | some s => !s.isEmpty
  | none => false

/-- Raw backend result record (the `result: any` consumed by the shaper),
with every field optional since the backend may omit any of them. -/
structure RawResult where
  title : Option String := none
  url : Option String := none
  content : Option String := none
  score : Option ℚ := none
  category : Option String := none
  engine : Option String := none
  publishedDate : Option String := none
  published_date : Option String := none
deriving DecidableEq, Repr

/-- Output record shape (types.ts `StructuredSearchResult`). -/
structure StructuredSearchResult where
  title : String
  url : String
  content : Option String := none
  score : Option ℚ := none
  category : Option String := none
  engine : Option String := none
  publishedDate : Option String := none
deriving DecidableEq, Repr

/-- Content truncation of `formatStructuredSearchResult` for a content string
longer than `contentLength`: sentence-boundary accumulation, hard character
cut with a three-character ellipsis when no sentence fits, final trim. -/
def truncateContent (content : String) (contentLength : Nat) : String :=
  let sentences :=
    ((splitSentences content).filter (fun s => (jsTrim s).length > 0)).map jsTrim
  let truncated := accumSentences contentLength sentences ""
  let truncated :=
    if truncated.length = 0 then jsSubstringTo content (contentLength - 3) ++ "..."
    else truncated
  jsTrim truncated

/-- Embedding of `formatStructuredSearchResult` (src/unnamed/part_003 lines
20-71).  `result.content.toString()` is the identity on our string model;
`Number(result.score)` is the identity on our numeric model. -/
def formatStructuredSearchResult (result : RawResult) (contentLength : Nat := 200) :
    StructuredSearchResult :=
  { title := result.title.getD ""
    url := result.url.getD ""
    content :=
      if strTruthy result.content then
        let content := result.content.getD ""
        if content.length > contentLength then some (truncateContent content contentLength)
        else some content
      else none
    score := result.score
    category :=
      if strTruthy result.category then result.category
      else if strTruthy result.engine then result.engine
      else none
    engine := if strTruthy result.engine then result.engine else none
    publishedDate :=
      if strTruthy result.publishedDate || strTruthy result.published_date then
        if strTruthy result.publishedDate then result.publishedDate else result.published_date
      else none }

/-- Metadata shape (types.ts `SearchMetadata`). -/
structure SearchMetadata where
  total_results : Nat
  time_taken : Option ℚ := none
  query : String
deriving DecidableEq, Repr

/-- Response shape (types.ts `StructuredSearchResponse`). -/
structure StructuredSearchResponse where
  results : List StructuredSearchResult
  metadata : SearchMetadata
deriving DecidableEq, Repr

/-- Raw backend payload: a `results` array (possibly absent) and an optional
`number_of_results` count. -/
structure RawData where
  results : Option (List RawResult) := none
  number_of_results : Option Nat := none
deriving DecidableEq, Repr

/-- Input of the shaper: by the time `buildStructuredResponse` runs, the
handler has guaranteed a present, non-empty `results` array. -/
structure ShapedInput where
  results : List RawResult
  number_of_results : Option Nat := none
deriving DecidableEq, Repr

/-- Normalized caller parameter bag consumed by the shaper and the request
translator, after validation.  Absent fields are `none`. -/
structure SearchParams where
  query : String := ""
  page : Option Nat := none
  offset : Option Nat := none
  max_results : Option Nat := none
  content_length : Option Nat := none
  language : Option String := none
  time_range : Option String := none
  safesearch : Option Nat := none
deriving DecidableEq, Repr

/-- JavaScript `x || d` on an optional number: absent and 0 both fall back. -/
def numOrDefault (x : Option Nat) (d : Nat) : Nat :=
  match x with
  | some 0 => d
  | some n => n
  | none => d

/-- Model of `arr.slice(start, stop)`: elements with indices in `[start, stop)`. -/
def jsSlice {α : Type} (l : List α) (start stop : Nat) : List α :=
  (l.take stop).drop start

/-- JavaScript truthiness of an optional number (`startTime ? ... : undefined`). -/
def numTruthyQ : Option ℚ → Bool
  | some q => q ≠ 0
  | none => false

/-- Embedding of `buildStructuredResponse` (src/unnamed/part_003 lines
73-100).  The impure `Date.now()` is modelled by the explicit `now`
parameter. -/
def buildStructuredResponse (data : ShapedInput) (query : String) (params : SearchParams)
    (startTime : Option ℚ := none) (now : ℚ := 0) : StructuredSearchResponse :=
  let endTime : Option ℚ := if numTruthyQ startTime then some now else none
  let timeTaken : Option ℚ :=
    if numTruthyQ startTime && numTruthyQ endTime then
      some ((endTime.getD 0 - startTime.getD 0) / 1000)
    else none
  let contentLength := numOrDefault params.content_length 200
  let maxResults := numOrDefault params.max_results 10
  let offset := (params.offset).getD 0
  let structuredResults := data.results.map (fun r => formatStructuredSearchResult r contentLength)
  let structuredResults := jsSlice structuredResults offset (offset + maxResults)
  { results := structuredResults
    metadata :=
      { total_results := numOrDefault data.number_of_results data.results.length
        time_taken := timeTaken
        query := query } }

/-! Multi-instance search handlers (src/src/search-handler.ts). -/

/-- Offset→page-number conversion at the top of both `search` methods
(src/src/search-handler.ts lines 24-29): `params.page || 1` overridden by
`floor(offset / (max_results || 10)) + 1` when `offset` is truthy and
positive. -/
def pageNumberOf (params : SearchParams) : Nat :=
  let base := numOrDefault params.page 1
  match params.offset with
  | some o => if 0 < o then o / numOrDefault params.max_results 10 + 1 else base
  | none => base

/-- Translator formula as the specification states it:
`pageNumber = offset>0 ? floor(offset / (maxResults||10)) + 1 : (page || 1)`.
This definition is written from the spec sentence, to be compared with
`pageNumberOf`, which is written from the source. -/
def specPageNumber (offset maxResults page : Option Nat) : Nat :=
  if 0 < offset.getD 0 then offset.getD 0 / numOrDefault maxResults 10 + 1
  else numOrDefault page 1

/-- Outcome of one backend call as observed by a handler's try block:
the fetch (or reading the response) threw, or an HTTP error status came back
(`body = none` when reading the error body also threw), or a success status
with a parsed JSON payload. -/
inductive FetchOutcome where
  | netError (msg : String)
  | httpError (status : Nat) (statusText : String) (body : Option String)
  | ok (data : RawData)
deriving DecidableEq, Repr

/-- Per-instance success/failure classification shared verbatim by the
sequential and the parallel handler: an attempt succeeds exactly when the
HTTP status is a success and the parsed `results` array is non-empty;
every other outcome yields the corresponding failure-record string. -/
def classify (inst : String) (o : FetchOutcome) : Except String RawData :=
  match o with
  | .netError m => .error ("Failed to connect to " ++ inst ++ ": " ++ m)
  | .httpError status statusText body =>
      .error (inst ++ " returned HTTP " ++ toString status ++ " " ++ statusText ++
        ". Response: " ++ jsSubstringTo (body.getD "No response body available") 200)
  | .ok data =>
      match data.results with
      | some (_ :: _) => .ok data
      | _ => .error (inst ++ " returned no results")

/-- One detail line: `  [${i+1}] ${err}`. -/
def ordinalLine (i : Nat) (err : String) : String :=
  "  [" ++ toString (i + 1) ++ "] " ++ err

/-- The details block `errors.map((err, i) => ...).join("\n")`. -/
def errorDetails (errors : List String) : String :=
  jsJoin "\n" (errors.enum.map (fun p => ordinalLine p.1 p.2))

/-- Header of the total-failure message. -/
def allFailedHeader : String :=
  "All SearXNG instances failed. Please ensure SearXNG is running on one of these instances: "

/-- The total-failure error message thrown by both handlers. -/
def allFailedMessage (instances : List String) (errors : List String) : String :=
  allFailedHeader ++ jsJoin ", " instances ++ "\n\nDetails:\n" ++ errorDetails errors

/-- Loop of `SearchHandler.search` (src/src/search-handler.ts lines 42-98):
walk the pending instances in order, accumulate one failure record per
failing instance, return the raw data of the first success.  Besides the
result, the model returns the list of instances actually contacted. -/
def seqGo (net : String → FetchOutcome) (allInstances : List String) :
    List String → List String → List String → Except String RawData × List String
  | [], errors, contacted => (.error (allFailedMessage allInstances errors), contacted)
  | inst :: rest, errors, contacted =>
    match classify inst (net inst) with
    | .ok data => (.ok data, contacted ++ [inst])
    | .error e => seqGo net allInstances rest (errors ++ [e]) (contacted ++ [inst])

/-- Embedding of the sequential-fallback `SearchHandler.search`.  The network
is modelled by `net`, giving each instance's outcome for this request. -/
def searchSequential (instances : List String) (net : String → FetchOutcome) :
    Except String RawData × List String :=
  seqGo net instances instances [] []

/-- Embedding of `ParallelSearchHandler.search` (src/src/search-handler.ts
lines 101-188) after every call settles: `Promise.allSettled` returns the
outcomes in the order the promises were created - instance list order -
independent of response-arrival order, which this pure model reflects. -/
def searchParallel (instances : List String) (net : String → FetchOutcome) :
    Except String RawData :=
  let settled := instances.map (fun inst => classify inst (net inst))
  let fulfilled := settled.filterMap (fun r => match r with | .ok d => some d | .error _ => none)
  let errors := settled.filterMap (fun r => match r with | .error e => some e | .ok _ => none)
  if fulfilled.length = 0 then
    .error (allFailedMessage instances errors)
  else
    let allResults := (fulfilled.map (fun d => d.results.getD [])).flatten
    .ok { results := some allResults, number_of_results := some allResults.length }

/-- Split a character list at newline characters. -/
def splitLinesChars : List Char → List Char → List (List Char)
  | [], acc => [acc.reverse]
  | c :: cs, acc =>
    if c = '\n' then acc.reverse :: splitLinesChars cs []
    else splitLinesChars cs (c :: acc)

/-- The lines of a string, as character lists. -/
def linesOf (s : String) : List (List Char) := splitLinesChars s.data []

/-- A failure line is a line starting with the ordinal marker `  [`. -/
def isFailureLine (l : List Char) : Bool := List.isPrefixOf "  [".data l

/-- Number of ordinal-prefixed failure lines in a message. -/
def failureLineCount (s : String) : Nat := ((linesOf s).filter isFailureLine).length

/-- Substring containment, used to state that the total-failure message
enumerates every instance base URL. -/
def containsSubstrOf (s sub : String) : Prop := sub.data <:+: s.data

/-- Generic success test for `Except` results. -/
def exceptOk {e a : Type} : Except e a → Bool
  | .ok _ => true
  | .error _ => false

/-- Success condition as the specification states it: the HTTP response
status indicates success AND the parsed result sequence is non-empty.
Written from the spec sentence, to be compared with `classify`, which is
written from the source. -/
def successOutcome : FetchOutcome → Bool
  | .ok data =>
    match data.results with
    | some (_ :: _) => true
    | _ => false
  | _ => false

/-- The failure-record string of a failing instance (meaningful only when
`classify` fails on that instance's outcome). -/
def classifyErr (net : String → FetchOutcome) (inst : String) : String :=
  match classify inst (net inst) with
  | .error e => e
  | .ok _ => ""

/-- Concatenation of each successful instance's result sequence, in the
order the instances appear in the configured list: the merge order the
specification promises for the parallel strategy. -/
def aggregatedResults (instances : List String) (net : String → FetchOutcome) :
    List RawResult :=
  instances.flatMap (fun j =>
    match classify j (net j) with
    | .ok d => d.results.getD []
    | .error _ => [])

/-- Synthetic raw result number `i+1` for the windowing tests. -/
def synthResult (i : Nat) : RawResult :=
  { title := some ("Result " ++ toString (i + 1))
    url := some ("https://example.com/" ++ toString (i + 1)) }

/-- Synthetic backend payload with `n` results. -/
def synthInput (n : Nat) : ShapedInput := { results := (List.range n).map synthResult }

/-- Shaped form of synthetic result number `i+1` under the default content length. -/
def synthShaped (i : Nat) : StructuredSearchResult :=
  formatStructuredSearchResult (synthResult i) 200

/-- Same success/failure classification, with equal data on success: two
settled outcomes agree up to the (discarded) failure detail. -/
def sameSuccess : Except String RawData → Except String RawData → Bool
  | .ok d, .ok e => decide (d = e)
  | .error _, .error _ => true
  | _, _ => false

/-- Fixture: a one-result payload used by the handler witnesses. -/
def hitData : RawData :=
  { results := some [{ title := some "hit" }], number_of_results := some 1 }

/-- Fixture: network where instance A answers HTTP 500 and instance B has one
valid result. -/
def netHttpFail : String → FetchOutcome := fun inst =>
  if inst = "http://a.test" then FetchOutcome.httpError 500 "Internal Server Error" (some "boom")
  else FetchOutcome.ok hitData

/-- Fixture: network where instance A suffers a connection error and instance
B has one valid result. -/
def netConnFail : String → FetchOutcome := fun inst =>
  if inst = "http://a.test" then FetchOutcome.netError "connect ECONNREFUSED"
  else FetchOutcome.ok hitData

/-- Fixture: network where both instances succeed with distinct results. -/
def netBothOk : String → FetchOutcome := fun inst =>
  if inst = "http://a.test" then FetchOutcome.ok { results := some [{ title := some "a1" }] }
  else FetchOutcome.ok { results := some [{ title := some "b1" }] }

/-- Fixture: network where instance A answers HTTP 500 and instance B
answers with an empty result set, so every instance fails. -/
def netAllFail : String → FetchOutcome := fun inst =>
  if inst = "http://a.test" then FetchOutcome.httpError 500 "Internal Server Error" (some "boom")
  else FetchOutcome.ok { results := some [] }

/-! Helper lemmas. -/

/-- Helper: `jsTypeof v = "string"` characterizes string values. -/
lemma typeof_string_iff (v : JSVal) : jsTypeof v = "string" ↔ ∃ s, v = JSVal.str s := by
  cases v <;> simp [jsTypeof]

/-- Helper: `jsTypeof v = "number"` characterizes numeric values. -/
lemma typeof_number_iff (v : JSVal) : jsTypeof v = "number" ↔ ∃ q, v = JSVal.num q := by
  cases v <;> simp [jsTypeof]

/-- Helper: passing one validator guard means its condition failed. -/
lemma checkResult_valid {c : Prop} [Decidable c] {msg : String} {next : ValidationResult}
    (h : (checkResult c msg next).valid = true) : ¬ c ∧ next.valid = true := by
  unfold checkResult at h
  split_ifs at h with hc
  exact ⟨hc, h⟩

/-- Helper: trimming never lengthens a character list. -/
lemma trimChars_length_le (cs : List Char) : (trimChars cs).length ≤ cs.length := by
  unfold trimChars
  simp only [List.length_reverse]
  calc ((cs.dropWhile Char.isWhitespace).reverse.dropWhile Char.isWhitespace).length
      ≤ (cs.dropWhile Char.isWhitespace).reverse.length :=
        (List.dropWhile_sublist _).length_le
    _ = (cs.dropWhile Char.isWhitespace).length := List.length_reverse _
    _ ≤ cs.length := (List.dropWhile_sublist _).length_le

/-- Helper: trimming never lengthens a string. -/
lemma jsTrim_length_le (s : String) : (jsTrim s).length ≤ s.length :=
  trimChars_length_le s.data

/-- Helper: the sentence-accumulation loop keeps the accumulator within the
limit once it starts within it. -/
lemma accumSentences_length_le (cl : Nat) (l : List String) (acc : String)
    (h : acc.length ≤ cl) : (accumSentences cl l acc).length ≤ cl := by
  induction l generalizing acc with
  | nil => simpa [accumSentences] using h
  | cons s rest ih =>
    unfold accumSentences
    split_ifs with hfit
    · exact ih _ hfit
    · exact h

/-- Helper: `substring(0, n)` returns at most `n` characters. -/
lemma jsSubstringTo_length_le (s : String) (n : Nat) : (jsSubstringTo s n).length ≤ n := by
  show (s.data.take n).length ≤ n
  simp [List.length_take]

/-- Helper: truncated content never exceeds `max contentLength 3`; the 3 comes
from the ellipsis fallback `substring(0, contentLength-3) + '...'`, which
yields 3 characters even when `contentLength < 3`. -/
lemma truncateContent_length_le (content : String) (cl : Nat) :
    (truncateContent content cl).length ≤ max cl 3 := by
  unfold truncateContent
  set sentences := List.map jsTrim
    (List.filter (fun s => decide ((jsTrim s).length > 0)) (splitSentences content)) with hs
  by_cases h0 : (accumSentences cl sentences "").length = 0
  · simp only [h0, if_pos rfl, if_true]
    refine le_trans (jsTrim_length_le _) ?_
    have h1 : (jsSubstringTo content (cl - 3)).length ≤ cl - 3 := jsSubstringTo_length_le _ _
    have h2 : ("..." : String).length = 3 := rfl
    rw [String.length_append]
    omega
  · simp only [if_neg h0]
    refine le_trans (jsTrim_length_le _) (le_trans (accumSentences_length_le cl _ "" (by simp)) ?_)
    exact le_max_left _ _

/-- Helper: any content field produced by the shaper is bounded by
`max contentLength 3`. -/
lemma formatStructuredSearchResult_content_le (r : RawResult) (cl : Nat) (c : String)
    (h : (formatStructuredSearchResult r cl).content = some c) : c.length ≤ max cl 3 := by
  unfold formatStructuredSearchResult at h
  simp only at h
  split_ifs at h with ht hlen
  · simp only [Option.some.injEq] at h
    subst h
    exact truncateContent_length_le _ _
  · simp only [Option.some.injEq] at h
    subst h
    omega

/-- Helper: the slice window only contains elements of the sliced list. -/
lemma jsSlice_subset {α : Type} (l : List α) (s e : Nat) : jsSlice l s e ⊆ l :=
  fun _ hx => (List.take_subset e l) ((List.drop_subset s (l.take e)) hx)

/-! Claim C2. -/

/-- Claim C2, counterexample: the claim says a request with `query` equal to
the empty string is rejected, but `isWebSearchArgs` accepts it: there is no
emptiness check after the type check, so `{ query: "" }` validates. -/
theorem c2_empty_query_accepted :
    isWebSearchArgs (JSVal.obj [("query", JSVal.str "")]) = ⟨true, none⟩ := by decide

/-- Claim C2 (amended): for every input object whose `query` field is absent
or of non-text type, the validator `isWebSearchArgs` returns invalid -
equivalently, a valid verdict forces `query` to be present and be text.  The
empty-string query, however, is accepted, not rejected. -/
theorem isWebSearchArgs_requires_query_string (args : JSVal)
    (h : (isWebSearchArgs args).valid = true) :
    hasKey args "query" = true ∧ ∃ s, jsGet args "query" = JSVal.str s := by
  unfold isWebSearchArgs at h
  obtain ⟨-, h⟩ := checkResult_valid h
  obtain ⟨h2, h⟩ := checkResult_valid h
  obtain ⟨h3, h⟩ := checkResult_valid h
  refine ⟨by simpa using h2, (typeof_string_iff _).mp (by simpa using h3)⟩

/-- Witness for the amended C2 theorem at the concrete input
`{ query: "test" }`. -/
theorem isWebSearchArgs_requires_query_string_witness :
    (isWebSearchArgs (JSVal.obj [("query", JSVal.str "test")])).valid = true ∧
      hasKey (JSVal.obj [("query", JSVal.str "test")]) "query" = true ∧
      ∃ s, jsGet (JSVal.obj [("query", JSVal.str "test")]) "query" = JSVal.str s :=
  ⟨by decide, isWebSearchArgs_requires_query_string _ (by decide)⟩

/-! Claim C9. -/

/-- Claim C9, counterexample: the claim says any non-integer numeric value
for `max_results` is rejected, but `isWebSearchArgs` only checks the numeric
type and the range, so the non-integer 5/2 (denominator 2) is accepted. -/
theorem c9_non_integer_accepted :
    (isWebSearchArgs (JSVal.obj [("query", JSVal.str "t"),
        ("max_results", JSVal.num (mkRat 5 2))])).valid = true ∧
      (mkRat 5 2).den = 2 := by decide

/-- Claim C9 (amended): for every input where `max_results`, `offset` or
`content_length` is present, the validator returns valid only if that value
is numeric and within its range (`max_results` in [1,100], `offset` >= 0,
`content_length` in [0,1000]); integrality is not checked, so non-integer
numeric values within range are accepted. -/
theorem isWebSearchArgs_numeric_ranges (args : JSVal)
    (h : (isWebSearchArgs args).valid = true) :
    (isUndef (jsGet args "max_results") = false →
      ∃ q, jsGet args "max_results" = JSVal.num q ∧ 1 ≤ q ∧ q ≤ 100) ∧
    (isUndef (jsGet args "offset") = false →
      ∃ q, jsGet args "offset" = JSVal.num q ∧ 0 ≤ q) ∧
    (isUndef (jsGet args "content_length") = false →
      ∃ q, jsGet args "content_length" = JSVal.num q ∧ 0 ≤ q ∧ q ≤ 1000) := by
  unfold isWebSearchArgs at h
  obtain ⟨-, h⟩ := checkResult_valid h
  obtain ⟨-, h⟩ := checkResult_valid h
  obtain ⟨-, h⟩ := checkResult_valid h
  obtain ⟨-, h⟩ := checkResult_valid h
  obtain ⟨-, h⟩ := checkResult_valid h
  obtain ⟨-, h⟩ := checkResult_valid h
  obtain ⟨-, h⟩ := checkResult_valid h
  obtain ⟨-, h⟩ := checkResult_valid h
  obtain ⟨-, h⟩ := checkResult_valid h
  obtain ⟨hmr, h⟩ := checkResult_valid h
  obtain ⟨hof, h⟩ := checkResult_valid h
  obtain ⟨hcl, -⟩ := checkResult_valid h
  push_neg at hmr hof hcl
  refine ⟨?_, ?_, ?_⟩
  · intro hu
    have h1 := hmr (by simp [hu])
    obtain ⟨q, hq⟩ := (typeof_number_iff _).mp h1.1
    exact ⟨q, hq, by simpa [hq, numVal] using h1.2.1, by simpa [hq, numVal] using h1.2.2⟩
  · intro hu
    have h1 := hof (by simp [hu])
    obtain ⟨q, hq⟩ := (typeof_number_iff _).mp h1.1
    exact ⟨q, hq, by simpa [hq, numVal] using h1.2⟩
  · intro hu
    have h1 := hcl (by simp [hu])
    obtain ⟨q, hq⟩ := (typeof_number_iff _).mp h1.1
    exact ⟨q, hq, by simpa [hq, numVal] using h1.2.1, by simpa [hq, numVal] using h1.2.2⟩

/-- Witness for the amended C9 theorem at a concrete input carrying all
three range-checked parameters. -/
theorem isWebSearchArgs_numeric_ranges_witness :
    (isWebSearchArgs (JSVal.obj [("query", JSVal.str "t"), ("max_results", JSVal.num 20),
        ("offset", JSVal.num 10), ("content_length", JSVal.num 300)])).valid = true ∧
      ((isUndef (jsGet (JSVal.obj [("query", JSVal.str "t"), ("max_results", JSVal.num 20),
        ("offset", JSVal.num 10), ("content_length", JSVal.num 300)]) "max_results") = false →
        ∃ q, jsGet (JSVal.obj [("query", JSVal.str "t"), ("max_results", JSVal.num 20),
          ("offset", JSVal.num 10), ("content_length", JSVal.num 300)]) "max_results" =
            JSVal.num q ∧ 1 ≤ q ∧ q ≤ 100) ∧
      (isUndef (jsGet (JSVal.obj [("query", JSVal.str "t"), ("max_results", JSVal.num 20),
        ("offset", JSVal.num 10), ("content_length", JSVal.num 300)]) "offset") = false →
        ∃ q, jsGet (JSVal.obj [("query", JSVal.str "t"), ("max_results", JSVal.num 20),
          ("offset", JSVal.num 10), ("content_length", JSVal.num 300)]) "offset" =
            JSVal.num q ∧ 0 ≤ q) ∧
      (isUndef (jsGet (JSVal.obj [("query", JSVal.str "t"), ("max_results", JSVal.num 20),
        ("offset", JSVal.num 10), ("content_length", JSVal.num 300)]) "content_length") = false →
        ∃ q, jsGet (JSVal.obj [("query", JSVal.str "t"), ("max_results", JSVal.num 20),
          ("offset", JSVal.num 10), ("content_length", JSVal.num 300)]) "content_length" =
            JSVal.num q ∧ 0 ≤ q ∧ q ≤ 1000)) :=
  ⟨by decide, isWebSearchArgs_numeric_ranges _ (by decide)⟩

/-! Claim C4. -/

/-- Claim C4: for every request, the Translator computes the backend page
number as `offset>0 ? floor(offset/(maxResults||10))+1 : (page||1)` (the
formula `specPageNumber` written from the spec); in particular offset=39
with maxResults=4 yields page number 10. -/
theorem pageNumberOf_correct :
    (∀ p : SearchParams, pageNumberOf p = specPageNumber p.offset p.max_results p.page) ∧
    (∀ pg : Option Nat,
      pageNumberOf { query := "q", page := pg, offset := some 39, max_results := some 4 } = 10) := by
  constructor
  · intro p
    unfold pageNumberOf specPageNumber
    cases hp : p.offset with
    | none => simp
    | some o => cases o <;> simp [Nat.succ_pos]
  · intro pg
    simp [pageNumberOf, numOrDefault]

/-! Claim C3. -/

/-- Claim C3: `buildStructuredResponse` returns the slice of the
already-shaped sequence starting at index `offset` and taking at most
`maxResults` entries (drop `offset`, then take `maxResults`); slicing past
the end shortens the output instead of failing.  In particular offset=10,
maxResults=5 on 20 synthetic results yields exactly results 11-15 (1-based),
and offset=3, maxResults=10 on 5 results yields exactly results 4-5. -/
theorem buildStructuredResponse_windowing :
    (∀ (data : ShapedInput) (q : String) (p : SearchParams) (st : Option ℚ) (now : ℚ),
      (buildStructuredResponse data q p st now).results =
        ((data.results.map (fun r =>
            formatStructuredSearchResult r (numOrDefault p.content_length 200))).drop
          (p.offset.getD 0)).take (numOrDefault p.max_results 10)) ∧
    (buildStructuredResponse (synthInput 20) "q"
        { query := "q", offset := some 10, max_results := some 5 }).results =
      [synthShaped 10, synthShaped 11, synthShaped 12, synthShaped 13, synthShaped 14] ∧
    (buildStructuredResponse (synthInput 5) "q"
        { query := "q", offset := some 3, max_results := some 10 }).results =
      [synthShaped 3, synthShaped 4] := by
  refine ⟨?_, ?_, ?_⟩
  · intro data q p st now
    show jsSlice _ _ _ = _
    unfold jsSlice
    rw [List.drop_take, Nat.add_sub_cancel_left]
  · rfl
  · rfl

/-! Claim C1. -/

/-- Claim C1, counterexample: the claim says shaped content never exceeds the
requested contentLength, but with requested content_length 1 (a value the
validator accepts) and raw content "ab" the shaper emits "..." of length
3 > 1: the ellipsis fallback `substring(0, contentLength-3) + '...'` is
longer than the request whenever contentLength < 3. -/
theorem c1_content_exceeds_request :
    ((buildStructuredResponse { results := [{ content := some "ab" }] } "q"
        { query := "q", content_length := some 1 }).results.map
      (fun r => r.content)) = [some "..."] ∧
      ¬ (("..." : String).length ≤ 1) := by decide

/-- Claim C1 (amended): for every raw record and requested contentLength, the
content field produced by the Shaper through `buildStructuredResponse` has
character count at most `max contentLength 3` - hence at most the requested
contentLength whenever contentLength is at least 3; requested values 1 and 2
can instead produce the 3-character ellipsis marker. -/
theorem buildStructuredResponse_content_bound (data : ShapedInput) (q : String)
    (p : SearchParams) (st : Option ℚ) (now : ℚ) (r : StructuredSearchResult)
    (hr : r ∈ (buildStructuredResponse data q p st now).results) (c : String)
    (hc : r.content = some c) :
    c.length ≤ max (numOrDefault p.content_length 200) 3 := by
  have heq : (buildStructuredResponse data q p st now).results =
      jsSlice (data.results.map (fun x =>
        formatStructuredSearchResult x (numOrDefault p.content_length 200)))
        (p.offset.getD 0) (p.offset.getD 0 + numOrDefault p.max_results 10) := rfl
  rw [heq] at hr
  obtain ⟨raw, -, hraw⟩ := List.mem_map.mp (jsSlice_subset _ _ _ hr)
  exact formatStructuredSearchResult_content_le raw _ c (hraw ▸ hc)

/-- Witness for the amended C1 theorem: the "ab" / content_length 1 input
exhibits content "..." within the amended bound max 1 3 = 3. -/
theorem buildStructuredResponse_content_bound_witness :
    ({ title := "", url := "", content := some "..." } : StructuredSearchResult) ∈
      (buildStructuredResponse { results := [{ content := some "ab" }] } "q"
        { query := "q", content_length := some 1 } none 0).results ∧
    ("..." : String).length ≤
      max (numOrDefault (SearchParams.content_length { query := "q", content_length := some 1 }) 200) 3 :=
  ⟨by decide, buildStructuredResponse_content_bound
    { results := [{ content := some "ab" }] } "q" { query := "q", content_length := some 1 }
    none 0 { title := "", url := "", content := some "..." } (by decide) "..." rfl⟩

/-! Claim C10. -/

/-- Claim C10: content_length 0 is accepted by the validator, and
`buildStructuredResponse` then substitutes the default 200 (`||` treats 0 as
absent): the response equals the one for content_length 200, and every
shaped result with truthy raw content still carries a content field of at
most 200 characters - the advertised "0 means no content, metadata only"
behaviour never occurs. -/
theorem contentLength_zero_uses_default (p : SearchParams)
    (h : p.content_length = some 0) :
    numOrDefault p.content_length 200 = 200 ∧
    (isWebSearchArgs (JSVal.obj [("query", JSVal.str "q"),
        ("content_length", JSVal.num 0)])).valid = true ∧
    (∀ (data : ShapedInput) (q : String) (st : Option ℚ) (now : ℚ),
      buildStructuredResponse data q p st now =
        buildStructuredResponse data q { p with content_length := some 200 } st now) ∧
    (∀ r : RawResult, strTruthy r.content = true →
      ∃ c, (formatStructuredSearchResult r
        (numOrDefault p.content_length 200)).content = some c ∧ c.length ≤ 200) := by
  refine ⟨by rw [h]; rfl, by decide, ?_, ?_⟩
  · intro data q st now
    unfold buildStructuredResponse
    rw [h]
    rfl
  · intro r htr
    rw [h]
    have hex : ∃ c, (formatStructuredSearchResult r (numOrDefault (some 0) 200)).content = some c := by
      unfold formatStructuredSearchResult
      simp only [htr, if_true]
      by_cases hl : (r.content.getD "").length > numOrDefault (some 0) 200
      · exact ⟨_, by rw [if_pos hl]⟩
      · exact ⟨_, by rw [if_neg hl]⟩
    obtain ⟨c, hc⟩ := hex
    exact ⟨c, hc, le_trans (formatStructuredSearchResult_content_le r _ c hc)
      (by decide : max (numOrDefault (some 0) 200) 3 ≤ 200)⟩

/-- Witness for the C10 theorem at a concrete parameter bag with
content_length 0 and a concrete one-result payload. -/
theorem contentLength_zero_uses_default_witness :
    numOrDefault (SearchParams.content_length { query := "q", content_length := some 0 }) 200 = 200 ∧
    buildStructuredResponse { results := [{ content := some "hello world" }] } "q"
        { query := "q", content_length := some 0 } none 0 =
      buildStructuredResponse { results := [{ content := some "hello world" }] } "q"
        { query := "q", content_length := some 200 } none 0 :=
  ⟨(contentLength_zero_uses_default { query := "q", content_length := some 0 } rfl).1,
    (contentLength_zero_uses_default { query := "q", content_length := some 0 } rfl).2.2.1
      { results := [{ content := some "hello world" }] } "q" none 0⟩

/-! Helper lemmas for the handler claims. -/

/-- Helper: the source classification succeeds exactly on the spec-side
success condition (success status and non-empty parsed results). -/
lemma classify_ok_eq (inst : String) (o : FetchOutcome) :
    exceptOk (classify inst o) = successOutcome o := by
  cases o with
  | netError m => rfl
  | httpError s st b => rfl
  | ok d =>
    cases hd : d.results with
    | none => simp [classify, successOutcome, hd, exceptOk]
    | some l => cases l <;> simp [classify, successOutcome, hd, exceptOk]

/-- Helper: a non-ok `Except` is an error. -/
lemma exceptOk_false_iff {e a : Type} (x : Except e a) (h : exceptOk x = false) :
    ∃ err, x = .error err := by
  cases x with
  | ok v => simp [exceptOk] at h
  | error err => exact ⟨err, rfl⟩

/-- Helper: `classifyErr` returns the failure record of a failing instance. -/
lemma classifyErr_spec (net : String → FetchOutcome) (j : String) (e : String)
    (h : classify j (net j) = .error e) : classifyErr net j = e := by
  unfold classifyErr
  rw [h]

/-- Helper: the sequential loop walks past a failing prefix, accumulating one
failure record and one contact per failing instance, in order. -/
lemma seqGo_append_fail (net : String → FetchOutcome) (all : List String) (pre : List String) :
    ∀ (rest errors contacted : List String),
    (∀ j ∈ pre, successOutcome (net j) = false) →
    seqGo net all (pre ++ rest) errors contacted =
      seqGo net all rest (errors ++ pre.map (classifyErr net)) (contacted ++ pre) := by
  induction pre with
  | nil => intro rest errors contacted _; simp
  | cons j pre ih =>
    intro rest errors contacted hfail
    have hj : successOutcome (net j) = false := hfail j (by simp)
    obtain ⟨e, he⟩ := exceptOk_false_iff (classify j (net j)) (by rw [classify_ok_eq]; exact hj)
    have hce : classifyErr net j = e := classifyErr_spec net j e he
    simp only [List.cons_append, seqGo, he, List.append_eq]
    rw [ih rest (errors ++ [e]) (contacted ++ [j]) (fun k hk => hfail k (List.mem_cons_of_mem j hk))]
    simp [hce, List.append_assoc]

/-- Helper: the parallel handler's flatMap over fulfilled outcomes equals the
per-instance aggregation in instance list order. -/
lemma filterMap_ok_flatten (net : String → FetchOutcome) :
    ∀ l : List String,
    (((l.map (fun inst => classify inst (net inst))).filterMap
        (fun r => match r with | .ok d => some d | .error _ => none)).map
      (fun d => d.results.getD [])).flatten = aggregatedResults l net := by
  intro l
  induction l with
  | nil => rfl
  | cons j rest ih =>
    unfold aggregatedResults at ih ⊢
    simp only [List.filterMap_map] at ih
    cases hc : classify j (net j) with
    | ok d => simp [List.filterMap_cons, List.filterMap_map, Function.comp, hc, ih]
    | error e => simp [List.filterMap_cons, List.filterMap_map, Function.comp, hc, ih]

/-- Helper: with at least one spec-successful instance, the fulfilled list of
the parallel handler is non-empty. -/
lemma fulfilled_ne_nil (net : String → FetchOutcome) (l : List String)
    (hsome : ∃ j ∈ l, successOutcome (net j) = true) :
    ((l.map (fun inst => classify inst (net inst))).filterMap
        (fun r => match r with | .ok d => some d | .error _ => none)).length ≠ 0 := by
  obtain ⟨j, hj, hs⟩ := hsome
  have hok : exceptOk (classify j (net j)) = true := by rw [classify_ok_eq]; exact hs
  obtain ⟨d, hd⟩ : ∃ d, classify j (net j) = .ok d := by
    cases hx : classify j (net j) with
    | ok d => exact ⟨d, rfl⟩
    | error e => rw [hx] at hok; simp [exceptOk] at hok
  have hmem : d ∈ (l.map (fun inst => classify inst (net inst))).filterMap
      (fun r => match r with | .ok d => some d | .error _ => none) := by
    apply List.mem_filterMap.mpr
    refine ⟨Except.ok d, ?_, rfl⟩
    exact List.mem_map.mpr ⟨j, hj, hd⟩
  intro hlen
  rw [List.length_eq_zero.mp hlen] at hmem
  exact absurd hmem (List.not_mem_nil d)

/-- Helper: with at least one success, the parallel handler returns the
instance-ordered aggregation with a recomputed count. -/
lemma searchParallel_eq_ok (instances : List String) (net : String → FetchOutcome)
    (hsome : ∃ j ∈ instances, successOutcome (net j) = true) :
    searchParallel instances net = Except.ok
      { results := some (aggregatedResults instances net)
        number_of_results := some (aggregatedResults instances net).length } := by
  unfold searchParallel
  rw [if_neg (fulfilled_ne_nil net instances hsome)]
  rw [filterMap_ok_flatten net instances]

/-- Helper: agreement up to failure detail preserves the aggregation. -/
lemma aggregatedResults_congr (instances : List String) (net net' : String → FetchOutcome)
    (hagree : ∀ j ∈ instances, sameSuccess (classify j (net j)) (classify j (net' j)) = true) :
    aggregatedResults instances net = aggregatedResults instances net' := by
  induction instances with
  | nil => rfl
  | cons j rest ih =>
    have hj := hagree j (by simp)
    have hrest := ih (fun k hk => hagree k (List.mem_cons_of_mem j hk))
    unfold aggregatedResults at hrest ⊢
    simp only [List.flatMap_cons]
    rw [hrest]
    congr 1
    cases h1 : classify j (net j) <;> cases h2 : classify j (net' j) <;>
      rw [h1, h2] at hj <;> simp [sameSuccess] at hj ⊢
    rw [hj]

/-- Helper: agreement up to failure detail preserves the success condition. -/
lemma success_transfer (instances : List String) (net net' : String → FetchOutcome)
    (hagree : ∀ j ∈ instances, sameSuccess (classify j (net j)) (classify j (net' j)) = true)
    (hsome : ∃ j ∈ instances, successOutcome (net j) = true) :
    ∃ j ∈ instances, successOutcome (net' j) = true := by
  obtain ⟨j, hj, hs⟩ := hsome
  refine ⟨j, hj, ?_⟩
  have hagj := hagree j hj
  rw [← classify_ok_eq j (net j)] at hs
  rw [← classify_ok_eq j (net' j)]
  cases h1 : classify j (net j) <;> cases h2 : classify j (net' j) <;>
    rw [h1, h2] at hagj <;> rw [h1] at hs <;>
    simp [sameSuccess, exceptOk] at hagj hs ⊢

/-! Helper lemmas for the total-failure message (claim C6). -/

lemma digitChar_lt_ne_newline (n : Nat) (h : n < 10) : Nat.digitChar n ≠ '\n' := by
  interval_cases n <;> decide

lemma toDigitsCore10_ne_newline :
    ∀ (fuel n : Nat) (acc : List Char), (∀ c ∈ acc, c ≠ '\n') →
    ∀ c ∈ Nat.toDigitsCore 10 fuel n acc, c ≠ '\n' := by
  intro fuel
  induction fuel with
  | zero => intro n acc hacc; simpa [Nat.toDigitsCore] using hacc
  | succ fuel ih =>
    intro n acc hacc
    unfold Nat.toDigitsCore
    show ∀ c ∈ (if n / 10 = 0 then Nat.digitChar (n % 10) :: acc
      else Nat.toDigitsCore 10 fuel (n / 10) (Nat.digitChar (n % 10) :: acc)), c ≠ '\n'
    have hd : ∀ c ∈ Nat.digitChar (n % 10) :: acc, c ≠ '\n' := by
      intro c hc
      rcases List.mem_cons.mp hc with h1 | h1
      · subst h1; exact digitChar_lt_ne_newline _ (Nat.mod_lt _ (by norm_num))
      · exact hacc c h1
    split_ifs with h
    · exact hd
    · exact ih (n / 10) _ hd

lemma natToString_no_newline (n : Nat) : '\n' ∉ (toString n).data := by
  intro hmem
  exact toDigitsCore10_ne_newline (n + 1) n [] (by simp) '\n' hmem rfl

lemma splitLinesChars_no_nl (a : List Char) (ha : '\n' ∉ a) :
    ∀ acc, splitLinesChars a acc = [acc.reverse ++ a] := by
  induction a with
  | nil => intro acc; simp [splitLinesChars]
  | cons c cs ih =>
    intro acc
    have hc : c ≠ '\n' := fun h => ha (h ▸ List.mem_cons_self c cs)
    have hcs : '\n' ∉ cs := fun h => ha (List.mem_cons_of_mem c h)
    simp only [splitLinesChars, if_neg hc]
    rw [ih hcs (c :: acc)]
    simp

lemma splitLinesChars_append (a : List Char) (ha : '\n' ∉ a) :
    ∀ (acc b : List Char), splitLinesChars (a ++ '\n' :: b) acc =
      (acc.reverse ++ a) :: splitLinesChars b [] := by
  induction a with
  | nil => intro acc b; simp [splitLinesChars]
  | cons c cs ih =>
    intro acc b
    have hc : c ≠ '\n' := fun h => ha (h ▸ List.mem_cons_self c cs)
    have hcs : '\n' ∉ cs := fun h => ha (List.mem_cons_of_mem c h)
    simp only [List.cons_append, splitLinesChars, if_neg hc, List.append_eq]
    rw [ih hcs (c :: acc) b]
    simp

lemma jsJoin_no_newline (sep : String) (hsep : '\n' ∉ sep.data) :
    ∀ (ls : List String), (∀ s ∈ ls, '\n' ∉ s.data) → '\n' ∉ (jsJoin sep ls).data := by
  intro ls
  induction ls with
  | nil => intro _; simp [jsJoin]
  | cons x rest ih =>
    intro h
    cases rest with
    | nil => simpa [jsJoin] using h x (by simp)
    | cons y rest2 =>
      simp only [jsJoin, String.data_append, List.mem_append]
      push_neg
      refine ⟨⟨h x (by simp), hsep⟩, ?_⟩
      exact ih (fun s hs => h s (List.mem_cons_of_mem x hs))

lemma splitLines_jsJoin (ls : List String) (hls : ∀ s ∈ ls, '\n' ∉ s.data) (hne : ls ≠ []) :
    splitLinesChars (jsJoin "\n" ls).data [] = ls.map String.data := by
  induction ls with
  | nil => exact absurd rfl hne
  | cons x rest ih =>
    cases rest with
    | nil =>
      simp only [jsJoin, List.map]
      rw [splitLinesChars_no_nl x.data (hls x (by simp)) []]
      simp
    | cons y rest2 =>
      have hx : '\n' ∉ x.data := hls x (by simp)
      have hdata : (x ++ "\n" ++ jsJoin "\n" (y :: rest2)).data =
          x.data ++ '\n' :: (jsJoin "\n" (y :: rest2)).data := by
        simp [String.data_append]
      simp only [jsJoin]
      rw [hdata, splitLinesChars_append x.data hx [] _]
      simp only [List.reverse_nil, List.nil_append]
      rw [ih (fun s hs => hls s (List.mem_cons_of_mem x hs)) (by simp)]
      rfl

lemma ordinalLine_no_newline (i : Nat) (err : String) (he : '\n' ∉ err.data) :
    '\n' ∉ (ordinalLine i err).data := by
  unfold ordinalLine
  simp only [String.data_append, List.mem_append]
  push_neg
  refine ⟨⟨⟨by decide, natToString_no_newline (i + 1)⟩, by decide⟩, he⟩

lemma isFailureLine_ordinal (i : Nat) (err : String) :
    isFailureLine (ordinalLine i err).data = true := by
  unfold isFailureLine ordinalLine
  simp only [String.data_append]
  have : ("  [".data ++ (toString (i + 1)).data ++ "] ".data ++ err.data) =
      "  [".data ++ ((toString (i + 1)).data ++ "] ".data ++ err.data) := by simp
  rw [this]
  rw [List.isPrefixOf_iff_prefix]
  exact List.prefix_append _ _

lemma isFailureLine_head_ne (c : Char) (cs : List Char) (h : c ≠ ' ') :
    isFailureLine (c :: cs) = false := by
  unfold isFailureLine
  show ([' ', ' ', '['].isPrefixOf (c :: cs)) = false
  simp [List.isPrefixOf_cons₂]
  intro hc
  exact absurd hc.symm h


lemma isFailureLine_header_append (b : List Char) :
    isFailureLine (allFailedHeader.data ++ b) = false := by
  rfl

lemma mem_infix_jsJoin (sep : String) (j : String) :
    ∀ (l : List String), j ∈ l → j.data <:+: (jsJoin sep l).data := by
  intro l
  induction l with
  | nil => intro h; cases h
  | cons x rest ih =>
    intro hj
    cases rest with
    | nil =>
      rcases List.mem_cons.mp hj with h | h
      · subst h; exact List.infix_refl _
      · cases h
    | cons y rest2 =>
      rcases List.mem_cons.mp hj with h | h
      · subst h
        refine ⟨[], sep.data ++ (jsJoin sep (y :: rest2)).data, ?_⟩
        simp [jsJoin, String.data_append]
      · obtain ⟨s, t, hst⟩ := ih h
        refine ⟨x.data ++ sep.data ++ s, t, ?_⟩
        simp only [jsJoin, String.data_append, ← hst]
        simp

lemma instance_in_message (instances errs : List String) (j : String) (hj : j ∈ instances) :
    containsSubstrOf (allFailedMessage instances errs) j := by
  obtain ⟨s, t, hst⟩ := mem_infix_jsJoin ", " j instances hj
  unfold containsSubstrOf allFailedMessage
  refine ⟨allFailedHeader.data ++ s, t ++ ("\n\nDetails:\n" ++ errorDetails errs).data, ?_⟩
  simp only [String.data_append, ← hst]
  simp

lemma searchSequential_all_fail (instances : List String) (net : String → FetchOutcome)
    (hall : ∀ j ∈ instances, successOutcome (net j) = false) :
    searchSequential instances net =
      (Except.error (allFailedMessage instances (instances.map (classifyErr net))), instances) := by
  have h := seqGo_append_fail net instances instances [] [] [] hall
  rw [List.append_nil] at h
  calc searchSequential instances net
      = seqGo net instances instances [] [] := rfl
    _ = seqGo net instances [] ([] ++ instances.map (classifyErr net)) ([] ++ instances) := h
    _ = (Except.error (allFailedMessage instances (instances.map (classifyErr net))), instances) := by
        simp [seqGo]

lemma parallel_all_fail_errors (net : String → FetchOutcome) :
    ∀ l : List String, (∀ j ∈ l, successOutcome (net j) = false) →
    (l.map (fun inst => classify inst (net inst))).filterMap
      (fun r => match r with | .ok d => some d | .error _ => none) = [] ∧
    (l.map (fun inst => classify inst (net inst))).filterMap
      (fun r => match r with | .error e => some e | .ok _ => none) = l.map (classifyErr net) := by
  intro l
  induction l with
  | nil => intro _; simp
  | cons j rest ih =>
    intro h
    obtain ⟨e, he⟩ := exceptOk_false_iff (classify j (net j))
      (by rw [classify_ok_eq]; exact h j (by simp))
    have hr := ih (fun k hk => h k (List.mem_cons_of_mem j hk))
    simp [List.filterMap_cons, he, hr.1, hr.2, classifyErr_spec net j e he]

lemma searchParallel_all_fail (instances : List String) (net : String → FetchOutcome)
    (hall : ∀ j ∈ instances, successOutcome (net j) = false) :
    searchParallel instances net =
      Except.error (allFailedMessage instances (instances.map (classifyErr net))) := by
  obtain ⟨h1, h2⟩ := parallel_all_fail_errors net instances hall
  unfold searchParallel
  rw [if_pos (by rw [h1]; rfl)]
  rw [h2]

lemma failureLineCount_allFailedMessage (instances errs : List String)
    (h1 : ∀ j ∈ instances, '\n' ∉ j.data) (h2 : ∀ e ∈ errs, '\n' ∉ e.data) :
    failureLineCount (allFailedMessage instances errs) = errs.length := by
  have hH : '\n' ∉ (allFailedHeader ++ jsJoin ", " instances).data := by
    simp only [String.data_append, List.mem_append]
    push_neg
    exact ⟨by decide, jsJoin_no_newline ", " (by decide) instances h1⟩
  have hdata : (allFailedMessage instances errs).data =
      (allFailedHeader ++ jsJoin ", " instances).data ++ '\n' ::
        ('\n' :: ("Details:".data ++ '\n' :: (errorDetails errs).data)) := by
    unfold allFailedMessage
    simp [String.data_append]
  have hHfalse : isFailureLine (allFailedHeader ++ jsJoin ", " instances).data = false := by
    have : (allFailedHeader ++ jsJoin ", " instances).data =
        allFailedHeader.data ++ (jsJoin ", " instances).data := by simp [String.data_append]
    rw [this]
    exact isFailureLine_header_append _
  unfold failureLineCount linesOf
  rw [hdata, splitLinesChars_append _ hH]
  have hsplit2 : splitLinesChars
      ('\n' :: ("Details:".data ++ '\n' :: (errorDetails errs).data)) [] =
      [] :: splitLinesChars ("Details:".data ++ '\n' :: (errorDetails errs).data) [] := by
    simp [splitLinesChars]
  rw [hsplit2, splitLinesChars_append "Details:".data (by decide)]
  simp only [List.reverse_nil, List.nil_append]
  rw [List.filter_cons_of_neg (by rw [hHfalse]; exact Bool.false_ne_true),
    List.filter_cons_of_neg (by decide : ¬ isFailureLine [] = true),
    List.filter_cons_of_neg (by decide : ¬ isFailureLine "Details:".data = true)]
  cases herrs : errs with
  | nil =>
    subst herrs
    have hdet : (errorDetails ([] : List String)).data = [] := rfl
    rw [hdet, splitLinesChars_no_nl [] (by simp)]
    decide
  | cons e0 erest =>
    subst herrs
    have hlines : ∀ s ∈ (e0 :: erest).enum.map (fun p => ordinalLine p.1 p.2), '\n' ∉ s.data := by
      intro s hs
      obtain ⟨⟨i, err⟩, hp, heq⟩ := List.mem_map.mp hs
      subst heq
      exact ordinalLine_no_newline i err (h2 err (List.snd_mem_of_mem_enum hp))
    have hlne : (e0 :: erest).enum.map (fun p => ordinalLine p.1 p.2) ≠ [] := by
      simp [List.enum]
    have hdet : (errorDetails (e0 :: erest)).data =
        (jsJoin "\n" ((e0 :: erest).enum.map (fun p => ordinalLine p.1 p.2))).data := rfl
    rw [hdet, splitLines_jsJoin _ hlines hlne]
    rw [List.filter_eq_self.mpr ?_]
    · simp [List.length_map, List.enum_length]
    · intro a ha
      obtain ⟨s, hs, heq⟩ := List.mem_map.mp ha
      obtain ⟨⟨i, err⟩, hp, heq2⟩ := List.mem_map.mp hs
      subst heq
      subst heq2
      exact isFailureLine_ordinal i err

/-! Claim C5. -/

/-- Claim C5: in the sequential-fallback strategy instances are tried in
list order; an attempt succeeds exactly when the HTTP status indicates
success and the parsed result sequence is non-empty (second conjunct);
every earlier failing instance is passed over, and on the first success
that instance's raw response is returned with exactly the prefix up to and
including it contacted - no later instance is reached. -/
theorem searchSequential_first_success (instances pre post : List String) (i : String)
    (net : String → FetchOutcome) (d : RawData) (l : List RawResult)
    (hsplit : instances = pre ++ i :: post)
    (hpre : ∀ j ∈ pre, successOutcome (net j) = false)
    (hi : net i = FetchOutcome.ok d) (hres : d.results = some l) (hne : l ≠ []) :
    searchSequential instances net = (Except.ok d, pre ++ [i]) ∧
    (∀ (inst : String) (o : FetchOutcome), exceptOk (classify inst o) = successOutcome o) := by
  subst hsplit
  refine ⟨?_, classify_ok_eq⟩
  unfold searchSequential
  rw [seqGo_append_fail net (pre ++ i :: post) pre (i :: post) [] [] hpre]
  have hcl : classify i (net i) = .ok d := by
    rw [hi]
    cases l with
    | nil => exact absurd rfl hne
    | cons a t => simp [classify, hres]
  simp [seqGo, hcl]

/-- Witness for C5, realizing the spec scenario: instance A answers HTTP 500,
instance B has one valid result; the handler returns B's raw response after
contacting exactly A then B. -/
theorem searchSequential_first_success_witness :
    searchSequential ["http://a.test", "http://b.test"] netHttpFail =
      (Except.ok hitData, ["http://a.test", "http://b.test"]) :=
  (searchSequential_first_success ["http://a.test", "http://b.test"] ["http://a.test"] []
    "http://b.test" netHttpFail hitData [{ title := some "hit" }]
    rfl (by decide) (by decide) rfl (by decide)).1

/-! Claim C7. -/

/-- Claim C7: in the parallel-fanout strategy, when at least one instance
succeeds the returned result sequence is the concatenation of each
successful instance's result sequence in configured list order
(`aggregatedResults`), and the total-result count is recomputed from the
aggregated results. -/
theorem searchParallel_merges_in_order (instances : List String)
    (net : String → FetchOutcome)
    (hsome : ∃ j ∈ instances, successOutcome (net j) = true) :
    searchParallel instances net = Except.ok
      { results := some (aggregatedResults instances net)
        number_of_results := some (aggregatedResults instances net).length } :=
  searchParallel_eq_ok instances net hsome

/-- Witness for C7 with two succeeding instances whose results concatenate
in list order. -/
theorem searchParallel_merges_in_order_witness :
    searchParallel ["http://a.test", "http://b.test"] netBothOk =
      Except.ok
        { results := some (aggregatedResults ["http://a.test", "http://b.test"] netBothOk)
          number_of_results :=
            some (aggregatedResults ["http://a.test", "http://b.test"] netBothOk).length } :=
  searchParallel_merges_in_order ["http://a.test", "http://b.test"] netBothOk (by decide)

/-! Claim C8. -/

/-- Claim C8: in the parallel-fanout strategy, whenever at least one instance
succeeds, the caller receives a fully successful response built only from
the successful instances: the value is `ok`, and replacing the failing
instances' outcomes by any other failing outcomes (different messages,
different failure kinds) leaves the returned value unchanged - no trace of
the failures reaches the caller. -/
theorem searchParallel_hides_partial_failures (instances : List String)
    (net net' : String → FetchOutcome)
    (hsome : ∃ j ∈ instances, successOutcome (net j) = true)
    (hagree : ∀ j ∈ instances, sameSuccess (classify j (net j)) (classify j (net' j)) = true) :
    exceptOk (searchParallel instances net) = true ∧
    searchParallel instances net = searchParallel instances net' := by
  constructor
  · rw [searchParallel_eq_ok instances net hsome]
    rfl
  · rw [searchParallel_eq_ok instances net hsome,
      searchParallel_eq_ok instances net' (success_transfer instances net net' hagree hsome),
      aggregatedResults_congr instances net net' hagree]

/-- Witness for C8: instance A fails with an HTTP error under one network
and with a connection error under another, instance B succeeds in both; the
response is successful and identical in both runs. -/
theorem searchParallel_hides_partial_failures_witness :
    exceptOk (searchParallel ["http://a.test", "http://b.test"] netHttpFail) = true ∧
    searchParallel ["http://a.test", "http://b.test"] netHttpFail =
      searchParallel ["http://a.test", "http://b.test"] netConnFail :=
  searchParallel_hides_partial_failures ["http://a.test", "http://b.test"]
    netHttpFail netConnFail (by decide) (by decide)

/-! Claim C6. -/

/-- Claim C6: when every configured instance fails, both strategies raise a
single terminal error whose message enumerates every instance base URL
attempted (each URL occurs as a substring) and whose ordinal-prefixed
failure lines number exactly N for N failing instances (assuming the URLs
and failure causes are newline-free, as the source's single-line messages
are). -/
theorem totalFailure_message_enumeration (instances : List String)
    (net : String → FetchOutcome)
    (hall : ∀ j ∈ instances, successOutcome (net j) = false)
    (hinl : ∀ j ∈ instances, '\n' ∉ j.data)
    (henl : ∀ j ∈ instances, '\n' ∉ (classifyErr net j).data) :
    (searchSequential instances net).1 =
      Except.error (allFailedMessage instances (instances.map (classifyErr net))) ∧
    searchParallel instances net =
      Except.error (allFailedMessage instances (instances.map (classifyErr net))) ∧
    (∀ j ∈ instances,
      containsSubstrOf (allFailedMessage instances (instances.map (classifyErr net))) j) ∧
    failureLineCount (allFailedMessage instances (instances.map (classifyErr net))) =
      instances.length := by
  refine ⟨?_, searchParallel_all_fail instances net hall, ?_, ?_⟩
  · rw [searchSequential_all_fail instances net hall]
  · intro j hj
    exact instance_in_message instances _ j hj
  · rw [failureLineCount_allFailedMessage instances _ hinl ?_]
    · exact List.length_map _ _
    · intro e he
      obtain ⟨j, hj, heq⟩ := List.mem_map.mp he
      subst heq
      exact henl j hj

/-- Witness for C6: two failing instances (HTTP 500 and an empty result
set); both strategies raise the enumerated message, whose failure-line
count equals 2. -/
theorem totalFailure_message_enumeration_witness :
    (searchSequential ["http://a.test", "http://b.test"] netAllFail).1 =
      Except.error (allFailedMessage ["http://a.test", "http://b.test"]
        (["http://a.test", "http://b.test"].map (classifyErr netAllFail))) ∧
    searchParallel ["http://a.test", "http://b.test"] netAllFail =
      Except.error (allFailedMessage ["http://a.test", "http://b.test"]
        (["http://a.test", "http://b.test"].map (classifyErr netAllFail))) ∧
    failureLineCount (allFailedMessage ["http://a.test", "http://b.test"]
        (["http://a.test", "http://b.test"].map (classifyErr netAllFail))) =
      (["http://a.test", "http://b.test"] : List String).length :=
  ⟨(totalFailure_message_enumeration ["http://a.test", "http://b.test"] netAllFail
      (by decide) (by decide) (by decide)).1,
    (totalFailure_message_enumeration ["http://a.test", "http://b.test"] netAllFail
      (by decide) (by decide) (by decide)).2.1,
    (totalFailure_message_enumeration ["http://a.test", "http://b.test"] netAllFail
      (by decide) (by decide) (by decide)).2.2.2⟩

end Searx
